import Mathlib

/-!
Verification of the Radio-Ai chat radio player
(`src/app/radio-chatbot.tsx`).

The development shallowly embeds the two core components of the source:

* the Station Resolver (`findStation`), which maps a free-text query either
  to the pinned "Kodai FM" alias entry or to the first usable result of a
  directory search, and
* the Playback Controller (`playStation`, its event listeners, and the
  surrounding entry points `handleSend`, `stopStation`, `togglePlayPause`,
  the mute button handler, and the volume state setter), modelled as a
  state-transition system over an explicit controller state (`Ctrl`).

Network responses are modelled by an explicit `ApiResponse` value handed to
the functions that would perform the `fetch`; the number of directory
searches performed is returned alongside the resolver's result.  Audio
elements and the per-attempt load timeout are modelled explicitly so that
listener/timer lifetime can be reasoned about.
-/

namespace RadioAi

/-! ### String helpers (JS semantics) -/

/-- All suffixes of a character list, longest first (including the empty
suffix).  Used to express JS `String.prototype.includes`. -/
def suffixes : List Char → List (List Char)
  | [] => [[]]
  | c :: cs => (c :: cs) :: suffixes cs

/-- JS `s.includes(pat)`: `pat` occurs as a contiguous substring of `s`. -/
def containsStr (s pat : String) : Bool :=
  (suffixes s.data).any (fun t => List.isPrefixOf pat.data t)

/-- JS truthiness of an optional string field: present and non-empty. -/
def jsTruthy : Option String → Bool
  | none => false
  | some s => !(s == "")

/-- JS `o && o.startsWith('http')` on an optional string field. -/
def jsStartsWithHttp : Option String → Bool
  | none => false
  | some s => List.isPrefixOf "http".data s.data

/-- JS `a || b` where `a` is an optional string and `b` a string:
falls back to `b` when `a` is absent or empty. -/
def jsOrString (a : Option String) (b : String) : String :=
  match a with
  | some s => if s == "" then b else s
  | none => b

/-- The whitespace characters stripped by JS `trim` that can occur in a
keyboard query. -/
def isSpaceChar (c : Char) : Bool :=
  c == ' ' || c == '\t' || c == '\n' || c == '\r'

/-- Strip leading and trailing whitespace from a character list
(JS `String.prototype.trim`). -/
def trimChars (l : List Char) : List Char :=
  ((l.dropWhile isSpaceChar).reverse.dropWhile isSpaceChar).reverse

/-- ASCII lower-casing of one character (JS `toLowerCase` on the ASCII
range that the alias keys use). -/
def toLowerChar (c : Char) : Char :=
  if 65 ≤ c.toNat ∧ c.toNat ≤ 90 then Char.ofNat (c.toNat + 32) else c

/-- `query.toLowerCase().trim()` — the normalization applied by
`findStation` before the alias lookup. -/
def normalizeQuery (q : String) : String :=
  ⟨trimChars (q.data.map toLowerChar)⟩

/-! ### Station Resolver data (lines 77–108 of the source) -/

/-- The four hardcoded Kodai FM stream URLs, in source order. -/
def kodaiFMStreamUrls : List String :=
  ["https://radioindia.net/radio/kodaifm/icecast.audio",
   "http://radioindia.net/radio/kodaifm/icecast.audio",
   "https://streaming.radio.co/sd1a1c8b3d/listen",
   "http://streaming.radio.co/sd1a1c8b3d/listen"]

/-- The `directStreamUrls` alias table: every key is an alias of the one
pinned station and maps to the same URL list. -/
def directStreamUrls : List (String × List String) :=
  [("kodai fm", kodaiFMStreamUrls),
   ("kodai", kodaiFMStreamUrls),
   ("kodaisaral fm", kodaiFMStreamUrls),
   ("kodaisaralfm", kodaiFMStreamUrls),
   ("kodaikanal fm", kodaiFMStreamUrls),
   ("kodaikanal", kodaiFMStreamUrls)]

/-- JS object-key lookup `directStreamUrls[normalizedQuery]`. -/
def lookupAlias (nq : String) : Option (List String) :=
  (directStreamUrls.find? (fun p => p.1 == nq)).map (fun p => p.2)

/-- The display name returned on every alias path. -/
def pinnedStationName : String := "Kodai FM (Kodaikanal FM 100.5MHz)"

/-- One station object of the directory's JSON answer; each field is
optional because the payload is untrusted. -/
structure ApiStation where
  name : Option String
  url : Option String
  url_resolved : Option String
deriving Repr, DecidableEq

/-- Outcome of one directory `fetch`: the request may throw, return a
non-OK status, return unparseable/ill-shaped JSON, or return a list of
station objects. -/
inductive ApiResponse where
  | networkError : ApiResponse
  | httpError : ApiResponse
  | malformed : ApiResponse
  | ok : List ApiStation → ApiResponse
deriving Repr, DecidableEq

/-- The local re-filter of directory results (lines 198–203):
both `url` and `url_resolved` must be present and start with `http`. -/
def stationFilter (s : ApiStation) : Bool :=
  jsTruthy s.url && jsStartsWithHttp s.url &&
    jsTruthy s.url_resolved && jsStartsWithHttp s.url_resolved

/-- `station.url_resolved || station.url` (line 209). -/
def streamUrlOf (st : ApiStation) : String :=
  jsOrString st.url_resolved (jsOrString st.url "")

/-- The stations that survive the local re-filter, for a given response
(`[]` when the response was not a usable JSON array). -/
def filteredStations : ApiResponse → List ApiStation
  | .ok l => l.filter stationFilter
  | _ => []

/-- Result of a resolution: display name, primary URL, and (on the alias
path only) the full fallback URL list. -/
structure ResolutionResult where
  name : String
  url : String
  urls : Option (List String)
deriving Repr, DecidableEq

/-- `findStation` (lines 155–222).  The second component counts the
directory searches performed during the call.  All failure modes of the
network path are folded into `ApiResponse` and produce `none`; the
function is total, so no exception escapes to the caller. -/
def findStation (resp : ApiResponse) (query : String) :
    Option ResolutionResult × Nat :=
  let normalizedQuery := normalizeQuery query
  match lookupAlias normalizedQuery with
  | some urls => (some ⟨pinnedStationName, urls.headD "", some urls⟩, 0)
  | none =>
    if containsStr normalizedQuery "kodai" = true ∨
        containsStr normalizedQuery "kodaisaral" = true ∨
        containsStr normalizedQuery "kodaikanal" = true then
      (some ⟨pinnedStationName, kodaiFMStreamUrls.headD "",
        some kodaiFMStreamUrls⟩, 0)
    else
      match resp with
      | .ok stations =>
        if stations.length > 0 then
          match stations.filter stationFilter with
          | station :: _ =>
            (some ⟨jsOrString station.name query, streamUrlOf station,
              none⟩, 1)
          | [] => (none, 1)
        else (none, 1)
      | _ => (none, 1)

/-- The disjunction of alias conditions actually tested by `findStation`:
an exact alias-table hit, or a loose substring hit. -/
def aliasMatch (nq : String) : Bool :=
  (lookupAlias nq).isSome || containsStr nq "kodai" ||
    containsStr nq "kodaisaral" || containsStr nq "kodaikanal"

/-- Every value stored in the alias table is the Kodai FM URL list. -/
theorem lookupAlias_eq_kodai (nq : String) (urls : List String)
    (h : lookupAlias nq = some urls) : urls = kodaiFMStreamUrls := by
  unfold lookupAlias at h
  cases hf : List.find? (fun p => p.1 == nq) directStreamUrls with
  | none => rw [hf] at h; simp at h
  | some pr =>
    rw [hf] at h
    simp only [Option.map_some'] at h
    have hmem := List.mem_of_find?_eq_some hf
    simp only [directStreamUrls, List.mem_cons, List.mem_singleton,
      List.not_mem_nil, or_false] at hmem
    rcases hmem with h1 | h1 | h1 | h1 | h1 | h1 <;>
      (subst h1; simpa using h.symm)

/-- C2: for every query whose normalized (lowercased, trimmed) form exactly
matches an alias-table key or loosely contains one of the substrings
`kodai`, `kodaisaral`, `kodaikanal`, `findStation` returns the pinned
station's display name together with the full ordered Kodai FM candidate
URL list, performs zero directory searches, and never fails — regardless
of what the network would have answered. -/
theorem c2_alias_resolution (resp : ApiResponse) (q : String)
    (h : aliasMatch (normalizeQuery q) = true) :
    findStation resp q =
      (some ⟨pinnedStationName, kodaiFMStreamUrls.headD "",
        some kodaiFMStreamUrls⟩, 0) := by
  unfold findStation
  cases hl : lookupAlias (normalizeQuery q) with
  | some urls =>
    have hu := lookupAlias_eq_kodai _ _ hl
    subst hu
    simp only [hl]
  | none =>
    have hc : containsStr (normalizeQuery q) "kodai" = true ∨
        containsStr (normalizeQuery q) "kodaisaral" = true ∨
        containsStr (normalizeQuery q) "kodaikanal" = true := by
      simp only [aliasMatch, hl, Option.isSome_none, Bool.false_or,
        Bool.or_eq_true] at h
      tauto
    simp only [hl, if_pos hc]

/-- Witness for `c2_alias_resolution` at the concrete query `"Kodai FM"`. -/
theorem c2_alias_resolution_witness :
    aliasMatch (normalizeQuery "Kodai FM") = true ∧
    findStation ApiResponse.networkError "Kodai FM" =
      (some ⟨pinnedStationName, kodaiFMStreamUrls.headD "",
        some kodaiFMStreamUrls⟩, 0) :=
  ⟨by decide, c2_alias_resolution ApiResponse.networkError "Kodai FM" (by decide)⟩

/-- C3: for every query not matching an alias, `findStation` performs
exactly one directory search; it returns `none` whenever the response is
a network/parse failure, HTTP-unsuccessful, empty, or the locally
re-filtered result set (both `url` and `url_resolved` must start with an
HTTP scheme) is empty; failures are converted to `none` (the function is
total, so nothing propagates as an exception).  When the filtered set is
non-empty its first element is returned as the sole candidate (no
fallback list). -/
theorem c3_directory_path (resp : ApiResponse) (q : String)
    (h : aliasMatch (normalizeQuery q) = false) :
    (findStation resp q).2 = 1 ∧
    (filteredStations resp = [] → (findStation resp q).1 = none) ∧
    (∀ st rest, filteredStations resp = st :: rest →
      (findStation resp q).1 =
        some ⟨jsOrString st.name q, streamUrlOf st, none⟩) := by
  simp only [aliasMatch, Bool.or_eq_false_iff] at h
  obtain ⟨⟨⟨hl0, h1⟩, h2⟩, h3⟩ := h
  have hl : lookupAlias (normalizeQuery q) = none := by
    cases hx : lookupAlias (normalizeQuery q) with
    | none => rfl
    | some u => rw [hx] at hl0; simp at hl0
  have hc : ¬ (containsStr (normalizeQuery q) "kodai" = true ∨
      containsStr (normalizeQuery q) "kodaisaral" = true ∨
      containsStr (normalizeQuery q) "kodaikanal" = true) := by
    simp [h1, h2, h3]
  have key : findStation resp q =
      (match resp with
        | .ok stations =>
          if stations.length > 0 then
            match stations.filter stationFilter with
            | station :: _ =>
              (some ⟨jsOrString station.name q, streamUrlOf station,
                none⟩, 1)
            | [] => (none, 1)
          else (none, 1)
        | _ => (none, 1)) := by
    unfold findStation
    simp only [hl, if_neg hc]
  cases resp with
  | ok stations =>
    cases stations with
    | nil =>
      refine ⟨by simp [key], fun _ => by simp [key], ?_⟩
      intro st rest hst
      simp [filteredStations] at hst
    | cons a t =>
      rw [key]
      simp only [List.length_cons, gt_iff_lt, Nat.succ_pos, if_pos]
      cases hf : (a :: t).filter stationFilter with
      | nil =>
        refine ⟨rfl, fun _ => rfl, ?_⟩
        intro st rest hst
        simp only [filteredStations, hf] at hst
        exact absurd hst (by simp)
      | cons st' rest' =>
        refine ⟨rfl, ?_, ?_⟩
        · intro hemp
          simp only [filteredStations, hf] at hemp
          exact absurd hemp (by simp)
        · intro st rest hst
          simp only [filteredStations, hf] at hst
          injection hst with hst1 _
          subst hst1
          rfl
  | networkError =>
    refine ⟨by simp [key], fun _ => by simp [key], ?_⟩
    intro st rest hst
    simp [filteredStations] at hst
  | httpError =>
    refine ⟨by simp [key], fun _ => by simp [key], ?_⟩
    intro st rest hst
    simp [filteredStations] at hst
  | malformed =>
    refine ⟨by simp [key], fun _ => by simp [key], ?_⟩
    intro st rest hst
    simp [filteredStations] at hst

/-- Witness for `c3_directory_path`: a non-alias query with a usable
directory result yields that result as sole candidate, and the same query
with a network failure yields `none` after exactly one search. -/
theorem c3_directory_path_witness :
    aliasMatch (normalizeQuery "jazz radio") = false ∧
    (findStation (ApiResponse.ok
        [⟨some "X", some "http://a", some "http://b"⟩]) "jazz radio").1 =
      some ⟨"X", "http://b", none⟩ ∧
    (findStation ApiResponse.networkError "jazz radio").1 = none ∧
    (findStation ApiResponse.networkError "jazz radio").2 = 1 :=
  ⟨by decide,
   (c3_directory_path (ApiResponse.ok
      [⟨some "X", some "http://a", some "http://b"⟩]) "jazz radio"
      (by decide)).2.2 ⟨some "X", some "http://a", some "http://b"⟩ [] rfl,
   (c3_directory_path ApiResponse.networkError "jazz radio"
      (by decide)).2.1 rfl,
   (c3_directory_path ApiResponse.networkError "jazz radio" (by decide)).1⟩

/-! ### Playback Controller state

The React component state (`messages`, `isPlaying`, `currentStation`,
`volume`, `isMuted`, `inputValue`, the `idCounterRef` and `audioRef`
refs), together with an explicit account of every `Audio` element ever
constructed and of every `playStation` invocation ("attempt").  The
source never removes the event listeners it attaches and the load
timeout handle is a local of `playStation`, so each audio element keeps
its listeners forever and each attempt owns one timeout whose liveness
is tracked in the attempt record. -/

/-- Message role. -/
inductive Role where
  | user : Role
  | assistant : Role
deriving Repr, DecidableEq

/-- One transcript entry (the `Message` interface, lines 40–46). -/
structure Message where
  id : String
  role : Role
  content : String
  stationName : Option String
  stationUrl : Option String
deriving Repr, DecidableEq

/-- `generateId` (lines 125–128): increment the counter ref and render
`msg-` followed by the new counter value.  Returns the new counter and
the produced id. -/
def generateId (c : Nat) : Nat × String :=
  (c + 1, "msg-" ++ toString (c + 1))

/-- One `Audio` element.  `paused` is the element's paused flag (a fresh
element starts paused; `play()` clears it, `pause()` sets it); `playing`
records whether the element is audibly playing (set by its `play` event,
cleared by `pause()`). -/
structure AudioObj where
  aid : Nat
  url : String
  vol : Rat
  paused : Bool
  playing : Bool
deriving Repr, DecidableEq

/-- One `playStation` invocation: its audio element id, arguments, the
state values captured by its closures (React state as of the render that
created the closure), and whether its 8-second load timeout is still
pending. -/
structure Attempt where
  aid : Nat
  stationName : String
  stationUrl : String
  fallbackUrls : Option (List String)
  urlIndex : Nat
  capIsPlaying : Bool
  capIsMuted : Bool
  capVolume : Rat
  timeoutLive : Bool
deriving Repr, DecidableEq

/-- The whole controller state. -/
structure Ctrl where
  messages : List Message
  idCounter : Nat
  inputValue : String
  isPlaying : Bool
  currentStation : Option String
  volume : Rat
  isMuted : Bool
  audioRef : Option Nat
  audios : List AudioObj
  attempts : List Attempt
  nextAid : Nat
  lastResortCalls : List String
deriving Repr, DecidableEq

/-- Initial component state (lines 111–122). -/
def initCtrl : Ctrl :=
  ⟨[], 0, "", false, none, 1, false, none, [], [], 0, []⟩

/-- Update the audio element with the given id. -/
def setAudio (l : List AudioObj) (aid : Nat) (f : AudioObj → AudioObj) :
    List AudioObj :=
  l.map (fun a => if a.aid = aid then f a else a)

/-- Look up an audio element by id. -/
def findAudio (l : List AudioObj) (aid : Nat) : Option AudioObj :=
  l.find? (fun a => a.aid == aid)

/-- Look up an attempt by the id of its audio element. -/
def findAttempt (l : List Attempt) (aid : Nat) : Option Attempt :=
  l.find? (fun a => a.aid == aid)

/-- Mark an attempt's load timeout as no longer pending
(`clearTimeout(loadTimeout)`, or the timeout having fired). -/
def clearTO (l : List Attempt) (aid : Nat) : List Attempt :=
  l.map (fun a => if a.aid = aid then { a with timeoutLive := false } else a)

/-- `audio.pause()` on the element with the given id, together with the
effect of its (permanently attached) `pause` listener, which runs
`setIsPlaying(false)`.  The `pause` event only fires when the element was
not already paused. -/
def pauseAudioOn (s : Ctrl) (aid : Nat) : Ctrl :=
  match findAudio s.audios aid with
  | none => s
  | some a =>
    if a.paused then s
    else
      { s with
        audios := setAudio s.audios aid
          (fun a => { a with paused := true, playing := false }),
        isPlaying := false }

/-- Append one transcript entry whose id comes from `generateId`
(the `setMessages(prev => [...prev, { id: generateId(), ... }])`
pattern). -/
def pushMsg (s : Ctrl) (role : Role) (content : String)
    (sn su : Option String) : Ctrl :=
  { s with
    idCounter := (generateId s.idCounter).1,
    messages := s.messages ++
      [⟨(generateId s.idCounter).2, role, content, sn, su⟩] }

/-- `urlsToTry` (line 231): the fallback list when it is non-empty,
otherwise the single primary URL. -/
def urlsToTryOf (fallback : Option (List String)) (stationUrl : String) :
    List String :=
  match fallback with
  | some l => if l.length > 0 then l else [stationUrl]
  | none => [stationUrl]

/-- `urlsToTry[urlIndex] || stationUrl` (line 232). -/
def currentUrlOf (urls : List String) (idx : Nat) (stationUrl : String) :
    String :=
  match urls.get? idx with
  | some u => if u = "" then stationUrl else u
  | none => stationUrl

/-- The "Connecting" placeholder text (line 241). -/
def connectingContent (name : String) (total idx : Nat) : String :=
  "Connecting to " ++ name ++
    (if total > 1 ∧ idx > 0 then
      " (trying alternative stream " ++ toString (idx + 1) ++ "/" ++
        toString total ++ ")..."
    else "...")

/-- The success text written by the `play` listener (line 292). -/
def successContent (name : String) : String :=
  "✅ Now playing " ++ name ++ "..."

/-- `playStation` (lines 224–321), up to the point where control returns
to the event loop: pause and drop the current audio element, compute the
candidate list and current URL, append the "Connecting" message, build a
fresh audio element whose volume is `isMuted ? 0 : volume` (captured
values), register its listeners and arm its load timeout. -/
def playStation (s : Ctrl) (stationName stationUrl : String)
    (fallbackUrls : Option (List String)) (urlIndex : Nat)
    (capPlaying capMuted : Bool) (capVolume : Rat) : Ctrl :=
  let s1 :=
    match s.audioRef with
    | some aid => { pauseAudioOn s aid with audioRef := none }
    | none => s
  let urls := urlsToTryOf fallbackUrls stationUrl
  let s2 := pushMsg s1 Role.assistant
    (connectingContent stationName urls.length urlIndex) none none
  let audio : AudioObj :=
    ⟨s2.nextAid, currentUrlOf urls urlIndex stationUrl,
      (if capMuted then 0 else capVolume), true, false⟩
  let att : Attempt :=
    ⟨s2.nextAid, stationName, stationUrl, fallbackUrls, urlIndex,
      capPlaying, capMuted, capVolume, true⟩
  { s2 with
    audios := s2.audios ++ [audio],
    attempts := s2.attempts ++ [att],
    audioRef := some s2.nextAid,
    nextAid := s2.nextAid + 1 }

/-- The synchronous effect of calling the `async` last-resort function
`tryRadioBrowserAPI` from a listener: the invocation is recorded; its
body runs later as its own event (`tryRadioBrowserAPIRun`). -/
def invokeLastResort (s : Ctrl) (stationName : String) : Ctrl :=
  { s with lastResortCalls := s.lastResortCalls ++ [stationName] }

/-- The load timeout of an attempt fires after 8 s (lines 252–262): if it
is still pending it is consumed; then, when the captured `isPlaying` is
false, the next candidate is tried, or — if none remains — the
last-resort directory lookup is started. -/
def stepTimeout (s : Ctrl) (aid : Nat) : Ctrl :=
  match findAttempt s.attempts aid with
  | none => s
  | some att =>
    if att.timeoutLive then
      let s1 := { s with attempts := clearTO s.attempts aid }
      let urls := urlsToTryOf att.fallbackUrls att.stationUrl
      if att.capIsPlaying = false ∧ att.urlIndex < urls.length - 1 then
        playStation s1 att.stationName att.stationUrl att.fallbackUrls
          (att.urlIndex + 1) att.capIsPlaying att.capIsMuted att.capVolume
      else if att.capIsPlaying = false then
        invokeLastResort s1 att.stationName
      else s1
    else s

/-- The `error` listener of an attempt's audio element fires
(lines 302–316): cancel the pending timeout, then try the next candidate
or fall through to the last-resort lookup. -/
def stepError (s : Ctrl) (aid : Nat) : Ctrl :=
  match findAttempt s.attempts aid with
  | none => s
  | some att =>
    let s1 := { s with attempts := clearTO s.attempts aid }
    let urls := urlsToTryOf att.fallbackUrls att.stationUrl
    if att.urlIndex < urls.length - 1 then
      playStation s1 att.stationName att.stationUrl att.fallbackUrls
        (att.urlIndex + 1) att.capIsPlaying att.capIsMuted att.capVolume
    else
      invokeLastResort
        { s1 with isPlaying := false, currentStation := none }
        att.stationName

/-- The `loadeddata` listener fires (lines 264–277): cancel the pending
timeout and call `audio.play()` on that element (the element stops being
paused; success surfaces later as its `play` event, rejection as
`stepPlayRejected`). -/
def stepLoadedData (s : Ctrl) (aid : Nat) : Ctrl :=
  match findAttempt s.attempts aid with
  | none => s
  | some _ =>
    { s with
      attempts := clearTO s.attempts aid,
      audios := setAudio s.audios aid (fun a => { a with paused := false }) }

/-- The `canplay` listener fires (lines 279–281): cancel the pending
timeout. -/
def stepCanPlay (s : Ctrl) (aid : Nat) : Ctrl :=
  match findAttempt s.attempts aid with
  | none => s
  | some _ => { s with attempts := clearTO s.attempts aid }

/-- The rejection handler of `audio.play()` inside the `loadeddata`
listener (lines 266–276): try the next candidate, or reset the playing
state and fall through to the last-resort lookup. -/
def stepPlayRejected (s : Ctrl) (aid : Nat) : Ctrl :=
  match findAttempt s.attempts aid with
  | none => s
  | some att =>
    let urls := urlsToTryOf att.fallbackUrls att.stationUrl
    if att.urlIndex < urls.length - 1 then
      playStation s att.stationName att.stationUrl att.fallbackUrls
        (att.urlIndex + 1) att.capIsPlaying att.capIsMuted att.capVolume
    else
      invokeLastResort
        { s with isPlaying := false, currentStation := none }
        att.stationName

/-- The `play`-listener's transcript mutation (lines 287–295): copy the
message array and rewrite the content of its final entry in place when
that entry still contains "Connecting". -/
def rewriteLastOnPlay (msgs : List Message) (stationName : String) :
    List Message :=
  match msgs.getLast? with
  | none => msgs
  | some last =>
    if containsStr last.content "Connecting" then
      msgs.dropLast ++ [{ last with content := successContent stationName }]
    else msgs

/-- The `play` listener fires (lines 283–296) on an element whose
playback has been requested: cancel the pending timeout, mark the
element audible, set `isPlaying`/`currentStation`, and rewrite the last
"Connecting" transcript entry in place. -/
def stepPlay (s : Ctrl) (aid : Nat) : Ctrl :=
  match findAttempt s.attempts aid, findAudio s.audios aid with
  | some att, some a =>
    if a.paused then s
    else
      { s with
        attempts := clearTO s.attempts aid,
        audios := setAudio s.audios aid
          (fun a => { a with playing := true }),
        isPlaying := true,
        currentStation := some att.stationName,
        messages := rewriteLastOnPlay s.messages att.stationName }
  | _, _ => s

/-- `stopStation` (lines 370–377). -/
def stopStation (s : Ctrl) : Ctrl :=
  match s.audioRef with
  | none => s
  | some aid =>
    { pauseAudioOn s aid with
      audioRef := none, isPlaying := false, currentStation := none }

/-- `togglePlayPause` (lines 379–387): with no audio handle it does
nothing; otherwise pause when playing, else request playback (the
`play`/`pause` events then update `isPlaying`). -/
def togglePlayPause (s : Ctrl) : Ctrl :=
  match s.audioRef with
  | none => s
  | some aid =>
    if s.isPlaying then pauseAudioOn s aid
    else
      { s with
        audios := setAudio s.audios aid (fun a => { a with paused := false }) }

/-- The mute button's `onClick` handler (lines 683–687): toggle the
`isMuted` state and assign `!isMuted ? volume : 0` (computed from the
pre-toggle state) to the element's volume. -/
def muteToggle (s : Ctrl) : Ctrl :=
  match s.audioRef with
  | none => s
  | some aid =>
    { s with
      isMuted := !s.isMuted,
      audios := setAudio s.audios aid
        (fun a => { a with vol := if !s.isMuted then s.volume else 0 }) }

/-- The `setVolume` state setter (line 115); no UI control calls it, and
it touches only the stored scalar, not the active element. -/
def setVolumeState (s : Ctrl) (v : Rat) : Ctrl := { s with volume := v }

/-- The effective volume of the active stream: the volume of the element
`audioRef` points at. -/
def effectiveVolume (s : Ctrl) : Option Rat :=
  (s.audioRef.bind (findAudio s.audios)).map (fun a => a.vol)

/-- The URL of the element the controller currently holds. -/
def currentAudioUrl (s : Ctrl) : Option String :=
  (s.audioRef.bind (findAudio s.audios)).map (fun a => a.url)

/-- The terminal failure message appended when the last-resort lookup
also fails (lines 360–367), naming the station and suggesting
alternatives. -/
def corsFailContent (stationName : String) : String :=
  "Sorry, I couldn't play " ++ stationName ++
    " due to browser security restrictions (CORS).\n\n**Alternative options:**\n" ++
    "• Visit radiosindia.com/kodaifm.html to listen directly\n" ++
    "• Visit kodaisaralfm.com for the official stream\n" ++
    "• Try a different station like \"BBC Radio 1\" which usually works"

/-- JS template-literal interpolation of a possibly-absent string. -/
def jsInterp : Option String → String
  | none => "undefined"
  | some s => s

/-- The body of the `async` last-resort function `tryRadioBrowserAPI`
(lines 323–368), run as its own event with the directory's answer as a
parameter: on a usable filtered result, append a "Found … Trying to
play..." message and start a fresh single-URL session; otherwise append
the terminal failure message. -/
def tryRadioBrowserAPIRun (resp : ApiResponse) (s : Ctrl)
    (stationName : String) : Ctrl :=
  match resp with
  | .ok stations =>
    match stations.filter stationFilter with
    | station :: _ =>
      let s1 := pushMsg s Role.assistant
        ("Found " ++ jsInterp station.name ++
          " from Radio Browser. Trying to play...") none none
      playStation s1 (jsOrString station.name stationName)
        (streamUrlOf station) none 0 s1.isPlaying s1.isMuted s1.volume
    | [] =>
      pushMsg s Role.assistant (corsFailContent stationName) none none
  | _ => pushMsg s Role.assistant (corsFailContent stationName) none none

/-- The "couldn't find" text of `handleSend` (line 435). -/
def notFoundContent (query : String) : String :=
  "I couldn't find a station matching \"" ++ query ++
    "\". Try asking for:\n\n• \"BBC Radio 1\"\n• \"Classic FM\"\n" ++
    "• \"Radio Mirchi\"\n• \"Radio City\"\n• Or any other radio station name"

/-- The "Searching" placeholder text (line 407). -/
def searchingContent (q : String) : String :=
  "Searching for \"" ++ q ++ "\"..."

/-- The rewrite applied to the searching placeholder when resolution
succeeds (lines 415–426). -/
def foundUpdate (st : ResolutionResult) (sid : String) (m : Message) :
    Message :=
  if m.id = sid then
    { m with
      content := "Found " ++ st.name ++ "! Connecting...",
      stationName := some st.name,
      stationUrl := some st.url }
  else m

/-- The rewrite applied to the searching placeholder when resolution
fails (lines 430–439). -/
def notFoundUpdate (q : String) (sid : String) (m : Message) : Message :=
  if m.id = sid then { m with content := notFoundContent q } else m

/-- `handleSend` (lines 389–443), with the directory's answer to the one
`findStation` search passed explicitly.  The second component counts the
directory searches performed.  A blank input returns before any state is
touched; otherwise the user message and a "Searching" placeholder are
appended, the placeholder is rewritten according to the resolution
outcome, on success `playStation` is started, and the input is
cleared. -/
def handleSend (resp : ApiResponse) (s : Ctrl) : Ctrl × Nat :=
  if trimChars s.inputValue.data = [] then (s, 0)
  else
    let s1 := pushMsg s Role.user s.inputValue none none
    let searchingId := (generateId s1.idCounter).2
    let s2 := pushMsg s1 Role.assistant (searchingContent s.inputValue)
      none none
    match findStation resp s.inputValue with
    | (some st, n) =>
      let s3 := { s2 with
        messages := s2.messages.map (foundUpdate st searchingId) }
      let s4 := playStation s3 st.name st.url st.urls 0
        s3.isPlaying s3.isMuted s3.volume
      ({ s4 with inputValue := "" }, n)
    | (none, n) =>
      let s3 := { s2 with
        messages := s2.messages.map
          (notFoundUpdate s.inputValue searchingId) }
      ({ s3 with inputValue := "" }, n)

/-! ### Concrete traces -/

/-- Cascade trace: a session started on candidates `[A, B, C]`. -/
def cascadeS1 : Ctrl :=
  playStation initCtrl "Station S" "urlA" (some ["urlA", "urlB", "urlC"]) 0
    false false 1

/-- … attempt on `urlA` (audio element 0) fails with an `error` event. -/
def cascadeS2 : Ctrl := stepError cascadeS1 0

/-- … attempt on `urlB` (audio element 1) fails with an `error` event. -/
def cascadeS3 : Ctrl := stepError cascadeS2 1

/-- … attempt on `urlC` (audio element 2) loads. -/
def cascadeS4 : Ctrl := stepLoadedData cascadeS3 2

/-- … and its `play` event fires. -/
def cascadeS5 : Ctrl := stepPlay cascadeS4 2

/-- Listener-leak trace: a second `play()` supersedes a still-loading
first one; the first element's listeners stay attached. -/
def leakS1 : Ctrl := playStation initCtrl "S1" "urlA" none 0 false false 1

/-- … new session started while element 0 is still loading. -/
def leakS2 : Ctrl := playStation leakS1 "S2" "urlB" none 0 false false 1

/-- … element 0's delayed `loadeddata` fires; its listener calls
`audio.play()` on the superseded element. -/
def leakS3 : Ctrl := stepLoadedData leakS2 0

/-- … and the superseded element starts playing. -/
def leakS4 : Ctrl := stepPlay leakS3 0

/-- … element 1 loads … -/
def leakS5 : Ctrl := stepLoadedData leakS4 1

/-- … and also starts playing. -/
def leakS6 : Ctrl := stepPlay leakS5 1

/-- Stop-during-connect trace: a two-candidate session is stopped before
its 8-second load timeout fires. -/
def stopS1 : Ctrl :=
  playStation initCtrl "Kodai FM" "uA" (some ["uA", "uB"]) 0 false false 1

/-- … `stopStation` while element 0 is still connecting. -/
def stopS2 : Ctrl := stopStation stopS1

/-- … the load timeout of the stopped attempt fires 8 s later. -/
def stopS3 : Ctrl := stepTimeout stopS2 0

/-- Mute/volume trace: a playing session … -/
def muteS1 : Ctrl := playStation initCtrl "S" "uA" none 0 false false 1

/-- … loads … -/
def muteS2 : Ctrl := stepLoadedData muteS1 0

/-- … and plays … -/
def muteS3 : Ctrl := stepPlay muteS2 0

/-- … then the user mutes … -/
def muteS4 : Ctrl := muteToggle muteS3

/-- The rational 0.7 (numerator 7, denominator 10), built directly so
that the kernel can compute with it. -/
def vol07 : Rat := ⟨7, 10, by norm_num, by norm_num⟩

/-- … sets the stored volume to 0.7 … -/
def muteS5 : Ctrl := setVolumeState muteS4 vol07

/-- … and unmutes. -/
def muteS6 : Ctrl := muteToggle muteS5

/-- The candidate list of `urlsToTry` is never empty. -/
theorem urlsToTryOf_length_pos (f : Option (List String)) (u : String) :
    0 < (urlsToTryOf f u).length := by
  unfold urlsToTryOf
  cases f with
  | none => simp
  | some l =>
    by_cases h : l.length > 0 <;> simp [h]

/-- C1: candidates are tried strictly in array order.  When the attempt
at index `i` is abandoned — its load timeout fires with nothing playing,
or its `error` event fires — and index `i+1` exists, the next attempt is
started at index `i+1` of the same list; when no candidate remains,
control falls through to the last-resort directory lookup.  Concretely,
for candidates `[urlA, urlB, urlC]` where the first two fail, the session
passes through Connecting(urlA), Connecting(urlB), Connecting(urlC) and
then Playing. -/
theorem c1_candidates_strict_order (s : Ctrl) (aid : Nat) (att : Attempt)
    (hfind : findAttempt s.attempts aid = some att)
    (hlive : att.timeoutLive = true)
    (hcap : att.capIsPlaying = false) :
    ((att.urlIndex + 1 < (urlsToTryOf att.fallbackUrls att.stationUrl).length →
        stepTimeout s aid =
          playStation { s with attempts := clearTO s.attempts aid }
            att.stationName att.stationUrl att.fallbackUrls
            (att.urlIndex + 1) att.capIsPlaying att.capIsMuted att.capVolume ∧
        stepError s aid =
          playStation { s with attempts := clearTO s.attempts aid }
            att.stationName att.stationUrl att.fallbackUrls
            (att.urlIndex + 1) att.capIsPlaying att.capIsMuted att.capVolume) ∧
      (¬ att.urlIndex + 1 < (urlsToTryOf att.fallbackUrls att.stationUrl).length →
        stepTimeout s aid =
          invokeLastResort { s with attempts := clearTO s.attempts aid }
            att.stationName ∧
        stepError s aid =
          invokeLastResort
            { s with
              attempts := clearTO s.attempts aid,
              isPlaying := false, currentStation := none }
            att.stationName)) ∧
    (cascadeS1.isPlaying = false ∧ currentAudioUrl cascadeS1 = some "urlA") ∧
    (cascadeS2.isPlaying = false ∧ currentAudioUrl cascadeS2 = some "urlB") ∧
    (cascadeS3.isPlaying = false ∧ currentAudioUrl cascadeS3 = some "urlC") ∧
    (cascadeS5.isPlaying = true ∧
      cascadeS5.currentStation = some "Station S") := by
  refine ⟨⟨?_, ?_⟩, by decide, by decide, by decide, by decide⟩
  · intro h
    have hlt : att.urlIndex <
        (urlsToTryOf att.fallbackUrls att.stationUrl).length - 1 := by omega
    constructor
    · simp only [stepTimeout, hfind]
      rw [if_pos hlive, if_pos ⟨hcap, hlt⟩]
    · simp only [stepError, hfind]
      rw [if_pos hlt]
  · intro h
    have hpos := urlsToTryOf_length_pos att.fallbackUrls att.stationUrl
    have hnlt : ¬ att.urlIndex <
        (urlsToTryOf att.fallbackUrls att.stationUrl).length - 1 := by omega
    constructor
    · simp only [stepTimeout, hfind]
      rw [if_pos hlive, if_neg (fun hh => hnlt hh.2), if_pos hcap]
    · simp only [stepError, hfind]
      rw [if_neg hnlt]

/-- Witness for `c1_candidates_strict_order` at the first attempt of the
concrete cascade. -/
theorem c1_candidates_strict_order_witness :
    stepTimeout cascadeS1 0 =
      playStation { cascadeS1 with attempts := clearTO cascadeS1.attempts 0 }
        "Station S" "urlA" (some ["urlA", "urlB", "urlC"]) 1 false false 1 ∧
    cascadeS5.isPlaying = true := by
  have h := c1_candidates_strict_order cascadeS1 0
    ⟨0, "Station S", "urlA", some ["urlA", "urlB", "urlC"], 0,
      false, false, 1, true⟩ (by decide) rfl rfl
  exact ⟨(h.1.1 (by decide)).1, h.2.2.2.2.1⟩

/-- C4 evidence: the state reached by superseding a still-loading session
and then letting the superseded element's leaked `loadeddata`/`play`
listeners fire.  The old handle is paused and released before the new
element is constructed, but afterwards two elements are audibly playing
at once. -/
theorem c4_two_streams_after_supersede :
    ((findAudio leakS2.audios 0).map (fun a => a.paused) = some true ∧
      leakS2.audioRef = some 1) ∧
    (findAudio leakS6.audios 0).map (fun a => a.playing) = some true ∧
    (findAudio leakS6.audios 1).map (fun a => a.playing) = some true ∧
    (leakS6.audios.filter (fun a => a.playing)).length = 2 := by decide

/-- C5 evidence: `stopStation` cannot cancel the pending load timeout (a
local of `playStation`) and detaches no listener; after `stop()` the
timer of the stopped attempt is still live, and when it fires it appends
a new "Connecting" message and constructs a new stream object.  Starting
a second `play()` while the first is connecting likewise leaves two live
timeouts at once. -/
theorem c5_stale_timer_after_stop :
    ((findAttempt stopS2.attempts 0).map (fun a => a.timeoutLive) =
        some true ∧
      stopS2.audioRef = none ∧ stopS2.currentStation = none) ∧
    (stopS3.messages.length = stopS2.messages.length + 1 ∧
      stopS3.audioRef = some 1 ∧
      currentAudioUrl stopS3 = some "uB") ∧
    (leakS2.attempts.filter (fun a => a.timeoutLive)).length = 2 := by decide

/-- Length is preserved by the `play`-listener's transcript rewrite. -/
theorem rewriteLastOnPlay_length (msgs : List Message) (name : String) :
    (rewriteLastOnPlay msgs name).length = msgs.length := by
  unfold rewriteLastOnPlay
  cases hL : msgs.getLast? with
  | none => rfl
  | some last =>
    have hne : msgs ≠ [] := by
      intro he
      subst he
      simp at hL
    have hpos : 0 < msgs.length := List.length_pos.mpr hne
    by_cases hc : containsStr last.content "Connecting" = true <;>
      (simp [hc, List.length_dropLast]; try omega)

/-- C6: when playback starts, the success message is produced by
rewriting the final "Connecting" transcript entry in place — the `play`
step never changes the number of transcript entries — and on the
concrete `[urlA, urlB, urlC]` cascade where the first two candidates
fail, the transcript ends with exactly one terminal "Connecting"
placeholder before success and exactly one success message naming the
station after it, not three. -/
theorem c6_success_updates_in_place :
    (∀ s aid, (stepPlay s aid).messages.length = s.messages.length) ∧
    cascadeS4.messages.length = 3 ∧
    (cascadeS4.messages.filter
      (fun m => containsStr m.content "Now playing")).length = 0 ∧
    (cascadeS4.messages.getLast?.map
      (fun m => containsStr m.content "Connecting")) = some true ∧
    cascadeS5.messages.length = 3 ∧
    (cascadeS5.messages.filter
      (fun m => containsStr m.content "Now playing")).length = 1 ∧
    (cascadeS5.messages.getLast?.map (fun m => m.content)) =
      some (successContent "Station S") := by
  refine ⟨?_, by decide, by decide, by decide, by decide, by decide,
    by decide⟩
  intro s aid
  simp only [stepPlay]
  cases h1 : findAttempt s.attempts aid <;>
    cases h2 : findAudio s.audios aid <;>
      first
        | rfl
        | (rename_i att a
           by_cases hp : a.paused = true <;>
             simp [hp, rewriteLastOnPlay_length])

/-- C7 evidence: with a playing session, the mute button assigns
`!isMuted ? volume : 0` — the inverted branch — so `setMuted(true)`
leaves the element at the stored volume, and after `setVolume(0.7)` the
final `setMuted(false)` sets the element's volume to `0`, not `0.7`;
the stored scalar itself still holds `0.7`. -/
theorem c7_mute_sequence_yields_zero :
    (vol07.num = 7 ∧ vol07.den = 10) ∧
    (muteS3.isPlaying = true ∧ effectiveVolume muteS3 = some 1) ∧
    (muteS4.isMuted = true ∧ effectiveVolume muteS4 = some 1) ∧
    (muteS5.volume = vol07 ∧ effectiveVolume muteS5 = some 1) ∧
    (muteS6.isMuted = false ∧ muteS6.volume = vol07 ∧
      effectiveVolume muteS6 = some 0 ∧
      effectiveVolume muteS6 ≠ some vol07) := by decide

/-- C8: `togglePlayPause` with no audio handle leaves the state exactly
unchanged (no transcript entry, no playback change, and — being a total
function — no error); with a handle it pauses when playing and requests
playback when not. -/
theorem c8_toggle_play_pause (s : Ctrl) :
    (s.audioRef = none → togglePlayPause s = s) ∧
    (∀ aid, s.audioRef = some aid → s.isPlaying = true →
      togglePlayPause s = pauseAudioOn s aid) ∧
    (∀ aid, s.audioRef = some aid → s.isPlaying = false →
      togglePlayPause s =
        { s with
          audios := setAudio s.audios aid
            (fun a => { a with paused := false }) }) := by
  refine ⟨?_, ?_, ?_⟩
  · intro h
    simp only [togglePlayPause, h]
  · intro aid h hp
    simp only [togglePlayPause, h]
    rw [if_pos hp]
  · intro aid h hp
    simp only [togglePlayPause, h]
    rw [if_neg (by simp [hp])]

/-- Witness for `c8_toggle_play_pause`: on the initial state (no session)
the toggle is a no-op, and on the paused concrete session it requests
playback. -/
theorem c8_toggle_play_pause_witness :
    togglePlayPause initCtrl = initCtrl ∧
    togglePlayPause cascadeS1 =
      { cascadeS1 with
        audios := setAudio cascadeS1.audios 0
          (fun a => { a with paused := false }) } :=
  ⟨(c8_toggle_play_pause initCtrl).1 rfl,
   (c8_toggle_play_pause cascadeS1).2.2 0 rfl rfl⟩

/-- C10: a blank (empty or whitespace-only) input makes `handleSend`
return before doing anything: no transcript entry is appended, no
resolution or directory search happens, and the whole state — playing
flag, current station, audio handle included — is unchanged. -/
theorem c10_blank_input_noop (resp : ApiResponse) (s : Ctrl)
    (h : trimChars s.inputValue.data = []) :
    handleSend resp s = (s, 0) := by
  unfold handleSend
  rw [if_pos h]

/-- Witness for `c10_blank_input_noop` on a whitespace-only input. -/
theorem c10_blank_input_noop_witness :
    trimChars ("   ".data) = [] ∧
    handleSend ApiResponse.networkError
        { initCtrl with inputValue := "   " } =
      ({ initCtrl with inputValue := "   " }, 0) :=
  ⟨by decide,
   c10_blank_input_noop ApiResponse.networkError
     { initCtrl with inputValue := "   " } (by decide)⟩

/-! ### Uniqueness of transcript ids

`generateId` renders ids as `msg-` followed by the decimal counter.  To
show that distinct counter values give distinct id strings we relate
`Nat.repr` to a structurally recursive digit list and build a left
inverse for it. -/

/-- Decimal digit characters of `n`, most significant first: the digit
list underlying `Nat.repr`. -/
def decChars (n : Nat) : List Char :=
  if n < 10 then [Nat.digitChar n]
  else decChars (n / 10) ++ [Nat.digitChar (n % 10)]
termination_by n
decreasing_by exact Nat.div_lt_self (by omega) (by omega)

/-- `Nat.toDigitsCore` with enough fuel prepends exactly the decimal
digits. -/
theorem toDigitsCore_eq_decChars :
    ∀ (fuel n : Nat) (ds : List Char), n < fuel →
      Nat.toDigitsCore 10 fuel n ds = decChars n ++ ds := by
  intro fuel
  induction fuel with
  | zero => intro n ds h; omega
  | succ f ih =>
    intro n ds h
    show (if n / 10 = 0 then Nat.digitChar (n % 10) :: ds
      else Nat.toDigitsCore 10 f (n / 10) (Nat.digitChar (n % 10) :: ds)) =
      decChars n ++ ds
    by_cases h10 : n / 10 = 0
    · have hn : n < 10 := by omega
      rw [if_pos h10, decChars, if_pos hn, Nat.mod_eq_of_lt hn]
      rfl
    · have hlt : n / 10 < f := by
        have h1 : n / 10 < n := Nat.div_lt_self (by omega) (by omega)
        omega
      have hge : ¬ n < 10 := by omega
      rw [if_neg h10, ih (n / 10) _ hlt]
      conv_rhs => rw [decChars]
      rw [if_neg hge, List.append_assoc]
      rfl

/-- Reading one decimal digit back from its character. -/
def undecStep (a : Nat) (c : Char) : Nat := a * 10 + (c.toNat - 48)

/-- `digitChar` is inverted by subtracting the code of `0`. -/
theorem digitChar_toNat_sub (m : Nat) (h : m < 10) :
    (Nat.digitChar m).toNat - 48 = m := by
  interval_cases m <;> decide

/-- Folding the digit reader over the digit list recovers the number. -/
theorem foldl_undecStep_decChars (n : Nat) :
    ∀ a : Nat, (decChars n).foldl undecStep a =
      a * 10 ^ (decChars n).length + n := by
  induction n using Nat.strong_induction_on with
  | _ n ih =>
    intro a
    by_cases h : n < 10
    · rw [decChars, if_pos h]
      simp [List.foldl, undecStep, digitChar_toNat_sub n h, pow_one]
    · rw [decChars, if_neg h, List.foldl_append, List.length_append,
        ih (n / 10) (Nat.div_lt_self (by omega) (by omega))]
      simp only [List.foldl_cons, List.foldl_nil, List.length_singleton]
      rw [undecStep, digitChar_toNat_sub (n % 10) (Nat.mod_lt n (by omega)),
        pow_succ, ← mul_assoc]
      generalize a * 10 ^ (decChars (n / 10)).length = X
      omega

/-- The decimal digit list determines the number. -/
theorem decChars_injective (m n : Nat) (h : decChars m = decChars n) :
    m = n := by
  have hm := foldl_undecStep_decChars m 0
  have hn := foldl_undecStep_decChars n 0
  rw [h] at hm
  simp only [Nat.zero_mul, Nat.zero_add] at hm hn
  rw [hm] at hn
  exact hn

/-- `Nat.repr` is the decimal digit list, packed as a string. -/
theorem repr_eq_decChars (n : Nat) : Nat.repr n = (decChars n).asString := by
  show (Nat.toDigitsCore 10 (n + 1) n []).asString = _
  rw [toDigitsCore_eq_decChars (n + 1) n [] (by omega), List.append_nil]

/-- The transcript id produced for counter value `k`. -/
def idOf (k : Nat) : String := "msg-" ++ Nat.repr k

/-- `generateId` hands out exactly `idOf` of the incremented counter. -/
theorem generateId_snd (c : Nat) : (generateId c).2 = idOf (c + 1) := rfl

/-- Distinct counters give distinct transcript ids. -/
theorem idOf_injective (m n : Nat) (h : idOf m = idOf n) : m = n := by
  apply decChars_injective
  have hd := congrArg String.data h
  simp only [idOf, String.data_append, repr_eq_decChars] at hd
  exact List.append_cancel_left hd

/-- The id-uniqueness invariant: the transcript's ids are, in order, the
renderings of a strictly increasing list of counter values, all bounded
by the current counter. -/
def MsgIdsOk (s : Ctrl) : Prop :=
  ∃ ks : List Nat, s.messages.map Message.id = ks.map idOf ∧
    ks.Pairwise (· < ·) ∧ ∀ k ∈ ks, k ≤ s.idCounter

/-- Transfer of the invariant along equal transcripts and a
non-decreasing counter. -/
theorem msgIdsOk_congr {s t : Ctrl} (hm : t.messages = s.messages)
    (hc : s.idCounter ≤ t.idCounter) (h : MsgIdsOk s) : MsgIdsOk t := by
  obtain ⟨ks, h1, h2, h3⟩ := h
  exact ⟨ks, hm ▸ h1, h2, fun k hk => le_trans (h3 k hk) hc⟩

/-- Appending one entry through `generateId` preserves the invariant. -/
theorem msgIdsOk_pushMsg (s : Ctrl) (r : Role) (c : String)
    (sn su : Option String) (h : MsgIdsOk s) :
    MsgIdsOk (pushMsg s r c sn su) := by
  obtain ⟨ks, h1, h2, h3⟩ := h
  refine ⟨ks ++ [s.idCounter + 1], ?_, ?_, ?_⟩
  · simp only [pushMsg, List.map_append, h1, List.map_cons, List.map_nil,
      generateId_snd]
  · rw [List.pairwise_append]
    refine ⟨h2, List.pairwise_singleton _ _, ?_⟩
    intro a ha b hb
    simp only [List.mem_singleton] at hb
    subst hb
    exact lt_of_le_of_lt (h3 a ha) (by omega)
  · intro k hk
    rcases List.mem_append.mp hk with hk | hk
    · exact le_trans (h3 k hk) (by simp [pushMsg, generateId])
    · simp only [List.mem_singleton] at hk
      subst hk
      simp [pushMsg, generateId]

/-- `pauseAudioOn` touches neither the transcript nor the counter. -/
theorem pauseAudioOn_frame (s : Ctrl) (aid : Nat) :
    (pauseAudioOn s aid).messages = s.messages ∧
    (pauseAudioOn s aid).idCounter = s.idCounter := by
  unfold pauseAudioOn
  cases findAudio s.audios aid with
  | none => exact ⟨rfl, rfl⟩
  | some a => by_cases hp : a.paused = true <;> simp [hp]

/-- `playStation` preserves the invariant: it appends exactly one fresh
"Connecting" entry. -/
theorem msgIdsOk_playStation (s : Ctrl) (n u : String)
    (f : Option (List String)) (i : Nat) (cp cm : Bool) (cv : Rat)
    (h : MsgIdsOk s) : MsgIdsOk (playStation s n u f i cp cm cv) := by
  simp only [playStation]
  split
  · rename_i aid ha
    refine msgIdsOk_congr rfl le_rfl (msgIdsOk_pushMsg
      { pauseAudioOn s aid with audioRef := none } Role.assistant _
      none none ?_)
    exact msgIdsOk_congr (pauseAudioOn_frame s aid).1
      (le_of_eq (pauseAudioOn_frame s aid).2.symm) h
  · exact msgIdsOk_congr rfl le_rfl (msgIdsOk_pushMsg _ _ _ _ _ h)

/-- Rewriting a message in place keeps the id sequence. -/
theorem rewriteLastOnPlay_map_id (msgs : List Message) (name : String) :
    (rewriteLastOnPlay msgs name).map Message.id = msgs.map Message.id := by
  simp only [rewriteLastOnPlay]
  split
  · rfl
  · rename_i last hL
    split
    · have hne : msgs ≠ [] := by
        intro he
        subst he
        simp at hL
      have hlast : last = msgs.getLast hne := by
        have hx := List.getLast?_eq_getLast_of_ne_nil hne
        rw [hL] at hx
        exact Option.some_injective _ hx
      conv_rhs => rw [← List.dropLast_append_getLast hne]
      rw [List.map_append, List.map_append]
      simp [hlast]
    · rfl

/-- A map that does not change ids preserves the invariant. -/
theorem msgIdsOk_map (s : Ctrl) (f : Message → Message)
    (hf : ∀ m, (f m).id = m.id) (h : MsgIdsOk s) :
    MsgIdsOk { s with messages := s.messages.map f } := by
  obtain ⟨ks, h1, h2, h3⟩ := h
  refine ⟨ks, ?_, h2, h3⟩
  rw [List.map_map]
  have hcomp : Message.id ∘ f = Message.id := funext hf
  rw [hcomp, h1]

/-- The mid-cascade steps preserve the invariant. -/
theorem msgIdsOk_stepTimeout (s : Ctrl) (aid : Nat) (h : MsgIdsOk s) :
    MsgIdsOk (stepTimeout s aid) := by
  simp only [stepTimeout]
  split
  · exact h
  · split
    · split
      · exact msgIdsOk_playStation _ _ _ _ _ _ _ _ h
      · split
        · exact h
        · exact h
    · exact h

/-- `stepError` preserves the invariant. -/
theorem msgIdsOk_stepError (s : Ctrl) (aid : Nat) (h : MsgIdsOk s) :
    MsgIdsOk (stepError s aid) := by
  simp only [stepError]
  split
  · exact h
  · split
    · exact msgIdsOk_playStation _ _ _ _ _ _ _ _ h
    · exact h

/-- `stepLoadedData` preserves the invariant. -/
theorem msgIdsOk_stepLoadedData (s : Ctrl) (aid : Nat) (h : MsgIdsOk s) :
    MsgIdsOk (stepLoadedData s aid) := by
  simp only [stepLoadedData]
  split
  · exact h
  · exact h

/-- `stepCanPlay` preserves the invariant. -/
theorem msgIdsOk_stepCanPlay (s : Ctrl) (aid : Nat) (h : MsgIdsOk s) :
    MsgIdsOk (stepCanPlay s aid) := by
  simp only [stepCanPlay]
  split
  · exact h
  · exact h

/-- `stepPlayRejected` preserves the invariant. -/
theorem msgIdsOk_stepPlayRejected (s : Ctrl) (aid : Nat) (h : MsgIdsOk s) :
    MsgIdsOk (stepPlayRejected s aid) := by
  simp only [stepPlayRejected]
  split
  · exact h
  · split
    · exact msgIdsOk_playStation _ _ _ _ _ _ _ _ h
    · exact h

/-- `stepPlay` preserves the invariant (its transcript rewrite keeps
ids). -/
theorem msgIdsOk_stepPlay (s : Ctrl) (aid : Nat) (h : MsgIdsOk s) :
    MsgIdsOk (stepPlay s aid) := by
  simp only [stepPlay]
  split
  · rename_i att a heq1 heq2
    split
    · exact h
    · obtain ⟨ks, hh1, hh2, hh3⟩ := h
      refine ⟨ks, ?_, hh2, hh3⟩
      show (rewriteLastOnPlay s.messages att.stationName).map Message.id =
        ks.map idOf
      rw [rewriteLastOnPlay_map_id]
      exact hh1
  · exact h

/-- `stopStation` preserves the invariant. -/
theorem msgIdsOk_stopStation (s : Ctrl) (h : MsgIdsOk s) :
    MsgIdsOk (stopStation s) := by
  simp only [stopStation]
  split
  · exact h
  · rename_i aid ha
    exact msgIdsOk_congr (pauseAudioOn_frame s aid).1
      (le_of_eq (pauseAudioOn_frame s aid).2.symm) h

/-- `togglePlayPause` preserves the invariant. -/
theorem msgIdsOk_togglePlayPause (s : Ctrl) (h : MsgIdsOk s) :
    MsgIdsOk (togglePlayPause s) := by
  simp only [togglePlayPause]
  split
  · exact h
  · rename_i aid ha
    split
    · exact msgIdsOk_congr (pauseAudioOn_frame s aid).1
        (le_of_eq (pauseAudioOn_frame s aid).2.symm) h
    · exact h

/-- The mute handler preserves the invariant. -/
theorem msgIdsOk_muteToggle (s : Ctrl) (h : MsgIdsOk s) :
    MsgIdsOk (muteToggle s) := by
  simp only [muteToggle]
  split
  · exact h
  · exact h

/-- The last-resort body preserves the invariant. -/
theorem msgIdsOk_tryRadioBrowserAPIRun (resp : ApiResponse) (s : Ctrl)
    (name : String) (h : MsgIdsOk s) :
    MsgIdsOk (tryRadioBrowserAPIRun resp s name) := by
  simp only [tryRadioBrowserAPIRun]
  split
  · split
    · exact msgIdsOk_playStation _ _ _ _ _ _ _ _
        (msgIdsOk_pushMsg _ _ _ _ _ h)
    · exact msgIdsOk_pushMsg _ _ _ _ _ h
  · exact msgIdsOk_pushMsg _ _ _ _ _ h

/-- The success rewrite never changes ids. -/
theorem foundUpdate_id (st : ResolutionResult) (sid : String)
    (m : Message) : (foundUpdate st sid m).id = m.id := by
  unfold foundUpdate
  by_cases hm : m.id = sid <;> simp [hm]

/-- The failure rewrite never changes ids. -/
theorem notFoundUpdate_id (q sid : String) (m : Message) :
    (notFoundUpdate q sid m).id = m.id := by
  unfold notFoundUpdate
  by_cases hm : m.id = sid <;> simp [hm]

/-- `handleSend` preserves the invariant. -/
theorem msgIdsOk_handleSend (resp : ApiResponse) (s : Ctrl)
    (h : MsgIdsOk s) : MsgIdsOk (handleSend resp s).1 := by
  simp only [handleSend]
  split
  · exact h
  · split
    · rename_i st n hfs
      exact msgIdsOk_congr rfl le_rfl
        (msgIdsOk_playStation _ st.name st.url st.urls 0
          s.isPlaying s.isMuted s.volume
          (msgIdsOk_map _
            (foundUpdate st (generateId (pushMsg s Role.user
              s.inputValue none none).idCounter).2)
            (foundUpdate_id st _)
            (msgIdsOk_pushMsg _ _ _ _ _ (msgIdsOk_pushMsg _ _ _ _ _ h))))
    · rename_i n hfs
      exact msgIdsOk_congr rfl le_rfl
        (msgIdsOk_map _
          (notFoundUpdate s.inputValue (generateId (pushMsg s Role.user
            s.inputValue none none).idCounter).2)
          (notFoundUpdate_id _ _)
          (msgIdsOk_pushMsg _ _ _ _ _ (msgIdsOk_pushMsg _ _ _ _ _ h)))

/-- The states the program can reach: the initial render followed by any
interleaving of typing, sends, stream events, timer expiries, the
last-resort lookup, and the playback controls. -/
inductive Reach : Ctrl → Prop where
  | init : Reach initCtrl
  | setInput (s : Ctrl) (v : String) : Reach s →
      Reach { s with inputValue := v }
  | send (resp : ApiResponse) (s : Ctrl) : Reach s →
      Reach (handleSend resp s).1
  | timeout (s : Ctrl) (aid : Nat) : Reach s → Reach (stepTimeout s aid)
  | errorEv (s : Ctrl) (aid : Nat) : Reach s → Reach (stepError s aid)
  | loaded (s : Ctrl) (aid : Nat) : Reach s → Reach (stepLoadedData s aid)
  | canplay (s : Ctrl) (aid : Nat) : Reach s → Reach (stepCanPlay s aid)
  | rejected (s : Ctrl) (aid : Nat) : Reach s →
      Reach (stepPlayRejected s aid)
  | playEv (s : Ctrl) (aid : Nat) : Reach s → Reach (stepPlay s aid)
  | stop (s : Ctrl) : Reach s → Reach (stopStation s)
  | toggle (s : Ctrl) : Reach s → Reach (togglePlayPause s)
  | mute (s : Ctrl) : Reach s → Reach (muteToggle s)
  | setVol (s : Ctrl) (v : Rat) : Reach s → Reach (setVolumeState s v)
  | lastResort (resp : ApiResponse) (s : Ctrl) (name : String) :
      Reach s → Reach (tryRadioBrowserAPIRun resp s name)

/-- C9: in every reachable state the transcript ids are the decimal
renderings of a strictly increasing sequence of counter values — ids are
strictly monotonically increasing over the appends of a run — and hence
no two transcript entries share an id. -/
theorem c9_transcript_ids_unique (s : Ctrl) (h : Reach s) :
    (∃ ks : List Nat, s.messages.map Message.id = ks.map idOf ∧
      ks.Pairwise (· < ·)) ∧
    (s.messages.map Message.id).Nodup := by
  have hinv : MsgIdsOk s := by
    induction h with
    | init => exact ⟨[], rfl, List.Pairwise.nil, by simp⟩
    | setInput s v _ ih => exact msgIdsOk_congr rfl le_rfl ih
    | send resp s _ ih => exact msgIdsOk_handleSend resp s ih
    | timeout s aid _ ih => exact msgIdsOk_stepTimeout s aid ih
    | errorEv s aid _ ih => exact msgIdsOk_stepError s aid ih
    | loaded s aid _ ih => exact msgIdsOk_stepLoadedData s aid ih
    | canplay s aid _ ih => exact msgIdsOk_stepCanPlay s aid ih
    | rejected s aid _ ih => exact msgIdsOk_stepPlayRejected s aid ih
    | playEv s aid _ ih => exact msgIdsOk_stepPlay s aid ih
    | stop s _ ih => exact msgIdsOk_stopStation s ih
    | toggle s _ ih => exact msgIdsOk_togglePlayPause s ih
    | mute s _ ih => exact msgIdsOk_muteToggle s ih
    | setVol s v _ ih => exact msgIdsOk_congr rfl le_rfl ih
    | lastResort resp s name _ ih =>
        exact msgIdsOk_tryRadioBrowserAPIRun resp s name ih
  obtain ⟨ks, h1, h2, _⟩ := hinv
  refine ⟨⟨ks, h1, h2⟩, ?_⟩
  rw [h1]
  have h4 : ks.Pairwise (fun a b => idOf a ≠ idOf b) :=
    h2.imp (fun hab heq => absurd (idOf_injective _ _ heq) (Nat.ne_of_lt hab))
  exact (List.pairwise_map).mpr h4

/-- A concrete reachable state for the witness: type a query, send it,
the directory fails. -/
def c9State : Ctrl :=
  (handleSend ApiResponse.networkError
    { initCtrl with inputValue := "jazz" }).1

/-- Witness for `c9_transcript_ids_unique` on `c9State`. -/
theorem c9_transcript_ids_unique_witness :
    (c9State.messages.map Message.id).Nodup ∧
    c9State.messages.map Message.id = ["msg-1", "msg-2"] :=
  ⟨(c9_transcript_ids_unique c9State
      (Reach.send ApiResponse.networkError _
        (Reach.setInput initCtrl "jazz" Reach.init))).2,
   by decide⟩

end RadioAi
